import Mathlib

/-!
Verification model of the Scrawler agentic web crawler
(`src/agentic_crawler.py`, class `ImprovedAgenticWebCrawler`).

The crawl-orchestration and relevance-decision engine is embedded shallowly:

* Pure Python string operations (`in`, `lower`, `upper`, `strip`, `split`,
  `join`, slicing) are re-implemented structurally over `List Char` so that
  every definition evaluates inside the kernel.
* External collaborators (the Crawl4AI fetcher, the Ollama LLM, the
  BeautifulSoup DOM walk, `json.loads`) are modeled as oracle parameters:
  a fetch function returning the anchors found on a page plus the LLM's
  content verdict, a navigation-reply function, and an abstract JSON parser.
  `urljoin` is modeled by feeding already-resolved absolute hrefs;
  `urlparse` is modeled for absolute `scheme://host/path?query#fragment`
  URLs, the only shapes the crawler produces.
* Python floats in the heuristic link scorer are exact multiples of 0.5
  (constants 5.0, 3, 2, 1.5, 1); they are modeled exactly in half-point
  units: the integer `2*s` stands for the source score `s`, so the source
  clamp to [0,10] becomes a clamp to [0,20] and the source threshold
  `score < 3` becomes `score < 6`.
* The `asyncio.gather` batch is modeled sequentially in dispatch order;
  the spec leaves completion order unspecified and all shared-state
  mutation happens after the batch resolves.
-/

/-! ## Python-style string primitives over `List Char` -/

/-- Split a character list at every occurrence of `c`, keeping empty pieces,
like Python `s.split('/')`. -/
def splitOnCharAux (c : Char) : List Char → List Char → List (List Char)
| [], cur => [cur.reverse]
| x :: xs, cur =>
    if x == c then cur.reverse :: splitOnCharAux c xs []
    else splitOnCharAux c xs (x :: cur)

/-- Python `s.split(sep)` for a one-character separator (keeps empties). -/
def splitOnChar (c : Char) (l : List Char) : List (List Char) :=
  splitOnCharAux c l []

/-- Split at every character satisfying `p`, keeping empty pieces. -/
def splitPredAux (p : Char → Bool) : List Char → List Char → List (List Char)
| [], cur => [cur.reverse]
| x :: xs, cur =>
    if p x then cur.reverse :: splitPredAux p xs []
    else splitPredAux p xs (x :: cur)

/-- Split a string at the FIRST occurrence of `marker`, returning the parts
before and after it, like Python `s.split(marker, 1)` when it succeeds. -/
def splitMarkerFirst (marker : List Char) : List Char → Option (List Char × List Char)
| [] => none
| x :: xs =>
    if marker.isPrefixOf (x :: xs) then some ([], (x :: xs).drop marker.length)
    else (splitMarkerFirst marker xs).map (fun ab => (x :: ab.1, ab.2))

/-- Python substring test `needle in hay` (for the non-empty needles the
crawler uses). -/
def pyContains (hay needle : String) : Bool :=
  (splitMarkerFirst needle.data hay.data).isSome

/-- Python `s.lower()` (ASCII, which covers every constant in the source). -/
def pyLower (s : String) : String := String.mk (s.data.map Char.toLower)

/-- Python `s.upper()`. -/
def pyUpper (s : String) : String := String.mk (s.data.map Char.toUpper)

/-- Python `s.strip()`. -/
def pyStrip (s : String) : String :=
  String.mk (((s.data.dropWhile Char.isWhitespace).reverse.dropWhile Char.isWhitespace).reverse)

/-- Python `s.split(c)` producing strings (keeps empties). -/
def pySplitChar (s : String) (c : Char) : List String :=
  (splitOnChar c s.data).map String.mk

/-- Python argument-less `s.split()`: split on whitespace runs, dropping
empty pieces. -/
def pySplitWs (s : String) : List String :=
  ((splitPredAux Char.isWhitespace s.data []).filter (fun w => w != [])).map String.mk

/-- Python `sep.join(parts)`. -/
def pyJoin (sep : String) (parts : List String) : String :=
  String.mk (List.intercalate sep.data (parts.map String.data))

/-- Python slicing `s[:n]`. -/
def pyTake (s : String) (n : Nat) : String := String.mk (s.data.take n)

/-- Python `s.isdigit()`: non-empty and all digit characters. -/
def pyIsDigit (s : String) : Bool :=
  !s.data.isEmpty && s.data.all Char.isDigit

/-- Maximal runs of digit characters, like `re.findall(r"\d+", s)`. -/
def digitRunsAux : List Char → List Char → List String → List String
| [], cur, acc =>
    if cur.isEmpty then acc else acc ++ [String.mk cur.reverse]
| c :: rest, cur, acc =>
    if c.isDigit then digitRunsAux rest (c :: cur) acc
    else if cur.isEmpty then digitRunsAux rest [] acc
    else digitRunsAux rest [] (acc ++ [String.mk cur.reverse])

/-- All integer tokens of a string, in order, like `re.findall(r"\d+", s)`. -/
def digitRuns (s : String) : List String := digitRunsAux s.data [] []

/-- Python `int(s)` on a string of decimal digits. -/
def natFromDigits (s : String) : Nat :=
  s.data.foldl (fun n c => 10 * n + (c.toNat - 48)) 0

/-- Python dict assignment `d[k] = v`: overwrite in place if the key exists
(keeping its position), otherwise append. -/
def dictInsert {α : Type} (d : List (String × α)) (k : String) (v : α) : List (String × α) :=
  if d.any (fun p => p.1 == k) then
    d.map (fun p => if p.1 == k then (p.1, v) else p)
  else d ++ [(k, v)]

/-- First-seen-order deduplication, like `list(dict.fromkeys(xs))`. -/
def dedupKeepFirst (l : List String) : List String :=
  l.foldl (fun acc u => if u ∈ acc then acc else acc ++ [u]) []

/-- Stable insertion of `x` after every element `y` with `keyGe y x`. -/
def insertStable {α : Type} (keyGe : α → α → Bool) (x : α) : List α → List α
| [] => [x]
| y :: ys => if keyGe y x then y :: insertStable keyGe x ys else x :: y :: ys

/-- Python's stable `list.sort(key=k, reverse=True)`: descending by key,
ties kept in original order. A stable sort is uniquely determined by the
key order, so stable insertion sort models CPython's timsort exactly. -/
def stableSortDesc {α : Type} (keyGe : α → α → Bool) (l : List α) : List α :=
  l.foldl (fun acc x => insertStable keyGe x acc) []

/-! ## URLs: a model of `urllib.parse.urlparse` for absolute URLs -/

/-- The components `urlparse` yields on the `scheme://host/path?query#fragment`
shapes this crawler produces and consumes. -/
structure Url where
  scheme : String
  netloc : String
  path : String
  query : String
  fragment : String
deriving DecidableEq

/-- Modelled from `urllib.parse.urlparse` restricted to absolute URLs:
fragment after the first `#`, query after the first `?` of the rest,
scheme before the first `://`, netloc up to the next `/`, rest is path. -/
def urlparseModel (s : String) : Url :=
  let noFrag := splitMarkerFirst ['#'] s.data
  let s1 := match noFrag with | some ab => ab.1 | none => s.data
  let frag := match noFrag with | some ab => ab.2 | none => []
  let noQuery := splitMarkerFirst ['?'] s1
  let s2 := match noQuery with | some ab => ab.1 | none => s1
  let query := match noQuery with | some ab => ab.2 | none => []
  match splitMarkerFirst [':', '/', '/'] s2 with
  | some ab =>
      let netloc := ab.2.takeWhile (fun c => c != '/')
      { scheme := String.mk ab.1, netloc := String.mk netloc,
        path := String.mk (ab.2.drop netloc.length),
        query := String.mk query, fragment := String.mk frag }
  | none =>
      { scheme := "", netloc := "", path := String.mk s2,
        query := String.mk query, fragment := String.mk frag }

/-! ## Data model -/

/-- The objective analysis the LLM returns for `analyze_user_objective`
(`src/agentic_crawler.py` lines 74-121).  In the source it is a plain JSON
dict; `Option` models the presence or absence of each key, matching every
`.get(key, default)` access in the crawler. -/
structure ObjectiveAnalysis where
  data_types : Option (List String)
  key_fields : Option (List String)
  valuable_sections : Option (List String)
  url_patterns_to_seek : Option (List String)
  url_patterns_to_avoid : Option (List String)
  extraction_strategy : Option String
  success_criteria : Option String
deriving DecidableEq

/-- The empty dict `{}` that `__init__` stores in `crawl_objective_analysis`. -/
def emptyAnalysis : ObjectiveAnalysis :=
  { data_types := none, key_fields := none, valuable_sections := none,
    url_patterns_to_seek := none, url_patterns_to_avoid := none,
    extraction_strategy := none, success_criteria := none }

/-- The fixed fallback returned by `analyze_user_objective` on any call or
parse failure (`src/agentic_crawler.py` line 121). -/
def defaultObjectiveAnalysis : ObjectiveAnalysis :=
  { data_types := some ["general content"],
    key_fields := some ["title", "content", "links"],
    valuable_sections := some ["main content"],
    url_patterns_to_seek := some [],
    url_patterns_to_avoid := some ["login", "signup", "cart"],
    extraction_strategy := some "Extract all available content",
    success_criteria := some "Crawl specified number of pages" }

/-- The LLM's per-page content verdict.  The crawler reads only
`relevance_score` and `page_type` from it for orchestration decisions
(`.get('relevance_score', 0)` / `.get('page_type', 'unknown')`, both
defaulted at every use site, so they are stored here already defaulted). -/
structure ExtractionResult where
  relevance_score : Int
  page_type : String
deriving DecidableEq

/-- One `<a href=...>` anchor as the BeautifulSoup walk in
`_extract_links_with_context` (lines 499-527) sees it.  `href` is the
already-resolved absolute href (`urljoin` is external and modeled as
pre-resolved); the Bool flags model the `find_parent` checks. -/
structure Anchor where
  href : String
  anchor_text : String
  context : String
  title : String
  aria_label : String
  is_navigation : Bool
  is_main_content : Bool
  is_prominent : Bool
deriving DecidableEq

/-- A candidate link dict as built at line 526 of the source. -/
structure Link where
  url : String
  anchor_text : String
  context : String
  title : String
  aria_label : String
  is_navigation : Bool
  is_main_content : Bool
  is_prominent : Bool
  url_path : String
deriving DecidableEq

/-- One `{'url':…, 'pattern':…, 'relevance':…}` record appended to
`site_understanding['content_patterns'][page_type]` (line 492). -/
structure ContentPatternEntry where
  url : String
  pattern : String
  relevance : Int
deriving DecidableEq

/-- A visited-page record (`page_data`, line 612).  Fetcher metadata
(title, description, timestamp) is external and not read by any
orchestration decision, so it is omitted here. -/
structure PageData where
  url : String
  relevance_score : Int
  page_type : String
  ai_extraction : ExtractionResult
deriving DecidableEq

/-- The mutable crawler state: the `self.*` attributes of
`ImprovedAgenticWebCrawler.__init__` (lines 51-65).  The
`site_understanding` dict is flattened into its fields; its
`main_sections` entry is never read or written by the modeled flow.
`page_relevance_scores` is a dict in insertion order. -/
structure Crawler where
  max_pages : Nat
  concurrency : Nat
  visited_urls : List String
  scraped_data : List PageData
  base_domain : String
  crawl_objective : String
  crawl_objective_analysis : ObjectiveAnalysis
  desired_data_types : List String
  page_relevance_scores : List (String × Int)
  high_value_pages : List String
  high_value_url_patterns : List String
  content_patterns : List (String × List ContentPatternEntry)
  site_type : String
  recommended_focus : String
  current_phase : String
deriving DecidableEq

/-- `__init__` state (line 51-65); `None` strings become `""`. -/
def initialCrawler (max_pages concurrency : Nat) : Crawler :=
  { max_pages := max_pages, concurrency := concurrency,
    visited_urls := [], scraped_data := [], base_domain := "",
    crawl_objective := "", crawl_objective_analysis := emptyAnalysis,
    desired_data_types := [], page_relevance_scores := [],
    high_value_pages := [], high_value_url_patterns := [],
    content_patterns := [], site_type := "", recommended_focus := "",
    current_phase := "initialization" }

/-! ## Oracle response plumbing -/

/-- Strip an optional fenced code block before JSON-parsing, as done at
lines 102-110 (and identically at 372-379, 467-474, 704-707): if the text
contains a triple-backtick json fence, `re.search` extracts the first
fenced body (whitespace-trimmed, DOTALL); failing that, a plain fence is
tried; if the regex finds no closing fence the text is left unchanged. -/
def extractFenced (marker : String) (s : String) : Option String :=
  match splitMarkerFirst marker.data s.data with
  | none => none
  | some ab =>
      match splitMarkerFirst ['`', '`', '`'] ab.2 with
      | none => none
      | some mid => some (pyStrip (String.mk mid.1))

/-- The fence-stripping step applied to the raw LLM reply. -/
def stripFence (s : String) : String :=
  if pyContains s "```json" then
    match extractFenced "```json" s with
    | some t => t
    | none => s
  else if pyContains s "```" then
    match extractFenced "```" s with
    | some t => t
    | none => s
  else s

/-- `analyze_user_objective` (lines 74-121).  The Ollama call is the
`Option String` argument (`none` = the call raised); `parse` stands for
`json.loads` followed by the dict-to-record coercion (`none` = JSON parse
error).  On success the analysis is stored in the state and
`desired_data_types` is set from its `data_types` key; on any failure the
fixed default is returned and the state is left untouched. -/
def analyze_user_objective (st : Crawler) (oracleResp : Option String)
    (parse : String → Option ObjectiveAnalysis) : Crawler × ObjectiveAnalysis :=
  match oracleResp with
  | none => (st, defaultObjectiveAnalysis)
  | some resp =>
      let response_text := stripFence (pyStrip resp)
      match parse response_text with
      | none => (st, defaultObjectiveAnalysis)
      | some analysis =>
          ({ st with crawl_objective_analysis := analysis,
                     desired_data_types := analysis.data_types.getD [] }, analysis)

/-! ## Heuristic scoring and link handling -/

/-- `_is_same_domain` (lines 123-127): `False` when no base domain is set,
otherwise exact netloc equality (no subdomain matching). -/
def _is_same_domain (st : Crawler) (url : String) : Bool :=
  if st.base_domain == "" then false
  else (urlparseModel url).netloc == st.base_domain

/-- One path segment of `_extract_url_pattern` (line 134): `*` when the
segment is entirely numeric or longer than 30 characters. -/
def patternSegment (part : String) : String :=
  if pyIsDigit part || decide (30 < part.length) then "*" else part

/-- The non-empty path segments `urlparse(url).path` splits into (line 131). -/
def urlPathParts (url : String) : List String :=
  (pySplitChar (urlparseModel url).path '/').filter (fun p => p != "")

/-- `_extract_url_pattern` (lines 129-138).  The source makes it a method on
`self`, but it reads no attribute; the `st` parameter is kept to state that
fact as a theorem. -/
def _extract_url_pattern (st : Crawler) (url : String) : String :=
  let pattern_parts := (urlPathParts url).map patternSegment
  if pattern_parts.isEmpty then "/" else "/" ++ pyJoin "/" pattern_parts

/-- The low-value keywords penalized at lines 159-160. -/
def lowValueKeywords : List String :=
  ["privacy", "policy", "terms", "cookie", "login", "signin", "signup",
   "register", "cart", "checkout", "account", "subscribe", "newsletter"]

/-- Objective keywords: lowercased whitespace tokens of the objective text
longer than 3 characters (line 179). -/
def objectiveKeywords (objective : String) : List String :=
  ((pySplitWs objective).filter (fun w => decide (3 < w.length))).map pyLower

/-- The clamp `max(0, min(10, score))` of line 197, in half-point units. -/
def clampScore (s : Int) : Int := max 0 (min 20 s)

/-- `_score_link_relevance_heuristic` (lines 150-197).  Scores are in
half-point units (the returned integer is twice the source's float, which
is always an exact multiple of 0.5): base 5.0 → 10, keyword penalty −3 →
−6, main-content +2 → +4, prominent +1.5 → +3, navigation −1 → −2,
objective keyword in text +2 → +4 / in path +1.5 → +3, data type +2 → +4,
seek pattern +3 → +6, clamp [0,10] → [0,20]. -/
def _score_link_relevance_heuristic (st : Crawler) (link : Link) : Int :=
  let link_text := pyLower (link.anchor_text ++ " " ++ link.context)
  let url_path := pyLower link.url_path
  let score : Int := 10
  let score := lowValueKeywords.foldl
    (fun s kw => if pyContains link_text kw || pyContains url_path kw then s - 6 else s) score
  let score := if link.is_main_content then score + 4 else score
  let score := if link.is_prominent then score + 3 else score
  let score := if link.is_navigation then score - 2 else score
  let score :=
    if st.crawl_objective != "" then
      (objectiveKeywords st.crawl_objective).foldl
        (fun s kw =>
          let s := if pyContains link_text kw then s + 4 else s
          if pyContains url_path kw then s + 3 else s) score
    else score
  let score := st.desired_data_types.foldl
    (fun s dt =>
      if pyContains link_text (pyLower dt) || pyContains url_path (pyLower dt) then s + 4
      else s) score
  let score := (st.crawl_objective_analysis.url_patterns_to_seek.getD []).foldl
    (fun s p =>
      if pyContains url_path (pyLower p) || pyContains link_text (pyLower p) then s + 6
      else s) score
  clampScore score

/-- Occurrence count of a pattern in the `pattern_counts` defaultdict. -/
def lookupCountD0 (counts : List (String × Nat)) (k : String) : Nat :=
  match counts.find? (fun p => p.1 == k) with
  | some p => p.2
  | none => 0

/-- `pattern_counts[pattern] += 1` on a defaultdict(int). -/
def bumpCount (counts : List (String × Nat)) (k : String) : List (String × Nat) :=
  if counts.any (fun p => p.1 == k) then
    counts.map (fun p => if p.1 == k then (p.1, p.2 + 1) else p)
  else counts ++ [(k, 1)]

/-- The selection walk of `_select_best_links_for_recon` (lines 214-231):
stop at `count` accepted links, skip scores below 3 (6 in half-units),
allow at most 2 links per generalized URL pattern. -/
def selectDiverseWalk (st : Crawler) :
    List (Int × Link) → Nat → List Link → List (String × Nat) → List Link
| [], _count, selected, _counts => selected
| (score, link) :: rest, count, selected, pattern_counts =>
    if count ≤ selected.length then selected
    else if score < 6 then selectDiverseWalk st rest count selected pattern_counts
    else
      let pattern := _extract_url_pattern st link.url
      if 2 ≤ lookupCountD0 pattern_counts pattern then
        selectDiverseWalk st rest count selected pattern_counts
      else
        selectDiverseWalk st rest count (selected ++ [link]) (bumpCount pattern_counts pattern)

/-- `_select_best_links_for_recon` (lines 199-233): score every link, sort
descending by score (stable, as CPython's sort), then walk with the
diversity limits. -/
def _select_best_links_for_recon (st : Crawler) (links : List Link) (count : Nat) : List Link :=
  if links.isEmpty then []
  else
    let scored_links := links.map (fun l => (_score_link_relevance_heuristic st l, l))
    let sorted := stableSortDesc (fun y x => decide (x.1 ≤ y.1)) scored_links
    selectDiverseWalk st sorted count [] []

/-- `_normalize_url` (lines 494-497): resolve against the base (the model
feeds absolute hrefs, on which `urljoin` is the identity) and rebuild
`scheme://netloc/path`, discarding query string and fragment. -/
def _normalize_url (url : String) (base_url : String) : String :=
  let parsed := urlparseModel url
  parsed.scheme ++ "://" ++ parsed.netloc ++ parsed.path

/-- The hardcoded skip patterns extended onto the avoid list (line 503). -/
def hardcodedAvoidPatterns : List String :=
  ["javascript:", "mailto:", "tel:", "#", ".jpg", ".png", ".pdf", ".css", ".js"]

/-- `_extract_links_with_context` (lines 499-527).  Faithful to the source's
aliasing: `avoid_patterns = analysis.get('url_patterns_to_avoid', [])`
followed by `avoid_patterns.extend(...)` mutates the list stored inside
`crawl_objective_analysis` in place whenever the key is present, so the
returned state carries the grown list.  A candidate is kept when no avoid
pattern occurs in its raw href (case-insensitive), its normalized URL is
same-domain and unvisited, and its anchor text has at least 2 characters
(`if not anchor_text or len(anchor_text) < 2` — the first test is subsumed
by the second).  The `try/except` around `urljoin` (malformed hrefs
silently dropped) is not modeled: the model's hrefs are well-formed. -/
def _extract_links_with_context (st : Crawler) (anchors : List Anchor)
    (base_url : String) : Crawler × List Link :=
  let avoid_patterns :=
    (st.crawl_objective_analysis.url_patterns_to_avoid.getD []) ++ hardcodedAvoidPatterns
  let st :=
    match st.crawl_objective_analysis.url_patterns_to_avoid with
    | some l =>
        { st with crawl_objective_analysis :=
            { st.crawl_objective_analysis with
                url_patterns_to_avoid := some (l ++ hardcodedAvoidPatterns) } }
    | none => st
  let links := anchors.filterMap (fun a =>
    if avoid_patterns.any (fun p => pyContains (pyLower a.href) (pyLower p)) then none
    else
      let full_url := _normalize_url a.href base_url
      if !_is_same_domain st full_url || decide (full_url ∈ st.visited_urls) then none
      else if a.anchor_text.length < 2 then none
      else some
        { url := full_url, anchor_text := a.anchor_text,
          context := pyTake a.context 200, title := a.title,
          aria_label := a.aria_label, is_navigation := a.is_navigation,
          is_main_content := a.is_main_content, is_prominent := a.is_prominent,
          url_path := (urlparseModel full_url).path })
  (st, links)

/-- `site_understanding['content_patterns'][page_type].append(entry)` on a
defaultdict(list) (line 492). -/
def bucketAppend (m : List (String × List ContentPatternEntry)) (k : String)
    (v : ContentPatternEntry) : List (String × List ContentPatternEntry) :=
  if m.any (fun p => p.1 == k) then
    m.map (fun p => if p.1 == k then (p.1, p.2 ++ [v]) else p)
  else m ++ [(k, [v])]

/-- `_update_site_knowledge` (lines 482-492): record the page's relevance;
for relevance ≥ 6 register the page as high value, insert its URL pattern
idempotently, and append to the page-type bucket when `page_type` is
truthy. -/
def _update_site_knowledge (st : Crawler) (url : String) (res : ExtractionResult) : Crawler :=
  let relevance := res.relevance_score
  let prs := dictInsert st.page_relevance_scores url relevance
  if 6 ≤ relevance then
    let url_pattern := _extract_url_pattern st url
    let hvp :=
      if url_pattern ∈ st.high_value_url_patterns then st.high_value_url_patterns
      else st.high_value_url_patterns ++ [url_pattern]
    let cp :=
      if res.page_type != "" then
        bucketAppend st.content_patterns res.page_type
          { url := url, pattern := url_pattern, relevance := relevance }
      else st.content_patterns
    { st with page_relevance_scores := prs,
              high_value_pages := st.high_value_pages ++ [url],
              high_value_url_patterns := hvp, content_patterns := cp }
  else { st with page_relevance_scores := prs }

/-! ## External collaborators -/

/-- A fetched page as the core sees it: the anchors BeautifulSoup finds in
its HTML (with resolved hrefs and structural flags) together with the
LLM's content verdict for the page.  Content extraction (section-based or
whole-page) is an Oracle call chain whose merge logic is verified
separately on `compile_section_extraction`; for the crawl loop only its
resulting verdict matters. -/
structure FetchedPage where
  anchors : List Anchor
  extraction : ExtractionResult
deriving DecidableEq

/-- The `summarizeSiteStructure` reply keys that the orchestrator actually
reads back out of `site_understanding` (`site_type`,
`recommended_focus`); the remaining keys of the merged dict are never read
by the modeled flow. -/
structure SiteStrategy where
  site_type : String
  recommended_focus : String
deriving DecidableEq

/-- The external world: a deterministic fetcher (`none` = fetch failure or
`result.success == False`), the navigation LLM reply per current page
(`none` = the Ollama call raised), and the structure-analysis reply. -/
structure Env where
  fetch : String → Option FetchedPage
  navReply : String → Option String
  structureReply : Option SiteStrategy

/-! ## Page crawling and the reconnaissance loop -/

/-- `_crawl_page` (lines 604-634): fetch, run AI extraction, build the
page record.  On fetch failure or exception: `None`.  The successful
extraction path calls `_update_site_knowledge` (line 407 / 476). -/
def _crawl_page (env : Env) (st : Crawler) (url : String) : Crawler × Option PageData :=
  match env.fetch url with
  | none => (st, none)
  | some fp =>
      let st := _update_site_knowledge st url fp.extraction
      (st, some { url := url, relevance_score := fp.extraction.relevance_score,
                  page_type := fp.extraction.page_type, ai_extraction := fp.extraction })

/-- `_crawl_pages_batch` (lines 636-658): every not-yet-visited URL of the
batch is added to `visited_urls` BEFORE its fetch is dispatched; failures
are dropped from the results.  The concurrent `asyncio.gather` is modeled
in dispatch order. -/
def _crawl_pages_batch (env : Env) : Crawler → List String → Crawler × List PageData
| st, [] => (st, [])
| st, url :: rest =>
    if url ∈ st.visited_urls then _crawl_pages_batch env st rest
    else
      let st1 := { st with visited_urls := st.visited_urls ++ [url] }
      match _crawl_page env st1 url with
      | (st2, none) => _crawl_pages_batch env st2 rest
      | (st2, some pd) =>
          let r := _crawl_pages_batch env st2 rest
          (r.1, pd :: r.2)

/-- The enqueue step used by both crawl loops (lines 767-769 and 846-848):
append the URL at the back only when it is neither visited nor queued. -/
def enqueueUrl (visited : List String) (q : List String) (url : String) : List String :=
  if url ∉ visited ∧ url ∉ q then q ++ [url] else q

/-- Post-batch processing of one reconnaissance result (lines 757-769):
append the page record, re-fetch the page for its links, smart-filter them
(`count=8`) and enqueue the survivors. -/
def processReconResult (env : Env) (acc : Crawler × List String) (pd : PageData) :
    Crawler × List String :=
  let st := { acc.1 with scraped_data := acc.1.scraped_data ++ [pd] }
  let q := acc.2
  match env.fetch pd.url with
  | none => (st, q)
  | some fp =>
      let res := _extract_links_with_context st fp.anchors pd.url
      let st := res.1
      let links := res.2
      if links.isEmpty then (st, q)
      else
        let selected := _select_best_links_for_recon st links 8
        (st, selected.foldl (fun q l => enqueueUrl st.visited_urls q l.url) q)

/-- The reconnaissance while-loop (lines 736-771), fuel-indexed: while the
queue is non-empty and fewer than `recon_budget` pages are visited, pop
`min(concurrency, remaining budget, queue length)` URLs, drop the already
visited, crawl the batch, then process each result. -/
def reconLoop (env : Env) (recon_budget : Nat) : Nat → Crawler × List String → Crawler × List String
| 0, s => s
| fuel + 1, (st, q) =>
    if q.isEmpty || decide (recon_budget ≤ st.visited_urls.length) then (st, q)
    else
      let remaining := recon_budget - st.visited_urls.length
      let cbs := min (min st.concurrency remaining) q.length
      let batch_urls := (q.take cbs).filter (fun u => u ∉ st.visited_urls)
      let q := q.drop cbs
      if batch_urls.isEmpty then reconLoop env recon_budget fuel (st, q)
      else
        let r := _crawl_pages_batch env st batch_urls
        reconLoop env recon_budget fuel (r.2.foldl (processReconResult env) (r.1, q))

/-! ## Deep-crawl phase -/

/-- `_score_url_relevance` (lines 529-543), the deep-crawl pre-filter: base
5 plus +2 for a learned high-value URL pattern, +1 main content, +1
prominent, +2 when any seek pattern occurs in the URL.  These scores are
plain Python ints.  The dict also carries `historical_avg`, `should_crawl`
and `priority`, which no modeled decision reads (they feed only the prompt
text), so only `relevance_score` is modeled. -/
def _score_url_relevance (st : Crawler) (link : Link) : Int :=
  let url_pattern := _extract_url_pattern st link.url
  let pattern_bonus : Int := if url_pattern ∈ st.high_value_url_patterns then 2 else 0
  let s := 5 + pattern_bonus
  let s := if link.is_main_content then s + 1 else s
  let s := if link.is_prominent then s + 1 else s
  let seek := st.crawl_objective_analysis.url_patterns_to_seek.getD []
  if seek.any (fun p => pyContains (pyLower link.url) (pyLower p)) then s + 2 else s

/-- The reply-parsing tail of `_ask_ollama_for_navigation_advanced`
(lines 589-599): strip the reply; any case-insensitive occurrence of
`NONE` yields the empty selection; otherwise take the first five integer
tokens, map each 1-based index back to the candidate list, and drop
out-of-range indices. -/
def navSelect (respText : String) (top_candidates : List String) : List String :=
  let answer := pyStrip respText
  if pyContains (pyUpper answer) "NONE" then []
  else
    ((digitRuns answer).take 5).foldl (fun acc num =>
      let idx : Int := (natFromDigits num : Int) - 1
      if 0 ≤ idx ∧ idx < (top_candidates.length : Int) then
        match top_candidates.get? idx.toNat with
        | some url => acc ++ [url]
        | none => acc
      else acc) []

/-- `_ask_ollama_for_navigation_advanced` (lines 545-602): pre-score the
first 30 candidates, sort descending (stable), keep the top 12 for the
Oracle; on Oracle failure fall back to the top 3 of the sorted list (the
in-place `sort` means `scored_links[:3]` is already sorted). -/
def _ask_ollama_for_navigation_advanced (env : Env) (st : Crawler)
    (current_url : String) (available_links : List Link) : List String :=
  if available_links.isEmpty then []
  else
    let scored_links := (available_links.take 30).map (fun li => (li, _score_url_relevance st li))
    let scored_links := stableSortDesc (fun y x => decide (x.2 ≤ y.2)) scored_links
    let top_candidates := scored_links.take 12
    match env.navReply current_url with
    | none => (scored_links.take 3).map (fun l => l.1.url)
    | some answer => navSelect answer (top_candidates.map (fun l => l.1.url))

/-- The deep-seeding helper `extract_links_from_page` (lines 789-799):
re-fetch a reconnaissance page, extract and smart-filter its links
(`count=7`), return the unvisited ones; any failure yields `[]`. -/
def extractLinksFromPage (env : Env) (st : Crawler) (page_url : String) :
    Crawler × List String :=
  match env.fetch page_url with
  | none => (st, [])
  | some fp =>
      let res := _extract_links_with_context st fp.anchors page_url
      let st := res.1
      let selected := _select_best_links_for_recon st res.2 7
      (st, (selected.map (fun l => l.url)).filter (fun u => u ∉ st.visited_urls))

/-- Deep-queue seeding (lines 783-813): links from every reconnaissance
page with relevance ≥ 5, gathered in batch dispatch order, then
deduplicated in first-seen order (`list(dict.fromkeys(...))`). -/
def seedDeepQueue (env : Env) (st : Crawler) : Crawler × List String :=
  let hv := st.scraped_data.filter (fun p => decide (5 ≤ p.relevance_score))
  let r := hv.foldl (fun (acc : Crawler × List String) p =>
      let res := extractLinksFromPage env acc.1 p.url
      (res.1, acc.2 ++ res.2)) (st, [])
  (r.1, dedupKeepFirst r.2)

/-- Post-batch processing of one deep-crawl result (lines 837-848):
append the page record, re-fetch for links, ask the Oracle for next hops,
enqueue the selected URLs. -/
def processDeepResult (env : Env) (acc : Crawler × List String) (pd : PageData) :
    Crawler × List String :=
  let st := { acc.1 with scraped_data := acc.1.scraped_data ++ [pd] }
  let q := acc.2
  match env.fetch pd.url with
  | none => (st, q)
  | some fp =>
      let res := _extract_links_with_context st fp.anchors pd.url
      let st := res.1
      let links := res.2
      if links.isEmpty then (st, q)
      else
        let selected_urls := _ask_ollama_for_navigation_advanced env st pd.url links
        (st, selected_urls.foldl (fun q url => enqueueUrl st.visited_urls q url) q)

/-- The deep-crawl while-loop (lines 818-850), fuel-indexed: batch size
`max(2, concurrency // 2)`, budget `max_pages`. -/
def deepLoop (env : Env) : Nat → Crawler × List String → Crawler × List String
| 0, s => s
| fuel + 1, (st, q) =>
    if q.isEmpty || decide (st.max_pages ≤ st.visited_urls.length) then (st, q)
    else
      let batch_size := max 2 (st.concurrency / 2)
      let remaining := st.max_pages - st.visited_urls.length
      let cbs := min (min batch_size remaining) q.length
      let batch_urls := (q.take cbs).filter (fun u => u ∉ st.visited_urls)
      let q := q.drop cbs
      if batch_urls.isEmpty then deepLoop env fuel (st, q)
      else
        let r := _crawl_pages_batch env st batch_urls
        deepLoop env fuel (r.2.foldl (processDeepResult env) (r.1, q))

/-! ## The two-phase crawl -/

/-- The reconnaissance budget `max(5, self.max_pages // 10)` (line 727). -/
def reconBudget (st : Crawler) : Nat := max 5 (st.max_pages / 10)

/-- Phase 1 (lines 716-771): set the base domain from the start URL, enter
the reconnaissance phase, and run the loop on the frontier `[start_url]`. -/
def reconPhase (env : Env) (fuel : Nat) (st : Crawler) (start_url : String) :
    Crawler × List String :=
  let st := { st with base_domain := (urlparseModel start_url).netloc,
                      current_phase := "reconnaissance" }
  reconLoop env (reconBudget st) fuel (st, [start_url])

/-- The printed `deep_budget = self.max_pages - len(self.visited_urls)`
(line 776), an `int` that can be negative. -/
def deep_budget (st : Crawler) : Int :=
  (st.max_pages : Int) - (st.visited_urls.length : Int)

/-- `_analyze_site_structure` merged into `site_understanding` (lines
660-714, 773-774).  Only `site_type` and `recommended_focus` of the merged
dict are ever read back; the failure fallback uses the documented default
strings and `strategy = continue_deep` (never aborting the crawl). -/
def _analyze_site_structure_update (env : Env) (st : Crawler) : Crawler :=
  match env.structureReply with
  | some sa => { st with site_type := sa.site_type, recommended_focus := sa.recommended_focus }
  | none => { st with site_type := "unknown",
                      recommended_focus := "Continue crawling all page types" }

/-- Phase 2 (lines 776-850): enter the deep-crawl phase, seed a fresh
frontier from the high-relevance reconnaissance pages, and run the
AI-guided loop. -/
def deepPhase (env : Env) (fuel : Nat) (st : Crawler) : Crawler :=
  let st := { st with current_phase := "deep_crawl" }
  let r := seedDeepQueue env st
  (deepLoop env fuel (r.1, r.2)).1

/-- `crawl_website` (lines 716-859): reconnaissance, one structure
analysis, then the targeted deep crawl. -/
def crawl_website (env : Env) (fuel : Nat) (st : Crawler) (start_url : String) : Crawler :=
  let r := reconPhase env fuel st start_url
  let st := _analyze_site_structure_update env r.1
  deepPhase env fuel st

/-! ## Section-based content extraction (`_extract_content_by_sections`) -/

/-- The fields of one identified page section that the result-compilation
step reads: its positional `id` and its `name` (line 392).  The other
fields built by `_identify_page_sections` (text preview, headers, word
count, tag type) feed only the prompt text. -/
structure SectionInfo where
  id : Nat
  name : String
deriving DecidableEq

/-- One entry of the Oracle's `sections_analysis` list (lines 386-393):
`section_id` (absent keys and non-integers are outside this model),
`relevance_score` defaulted to 0, and the optional `extracted_content`
block, an opaque JSON value kept as a string. -/
structure SectionAnalysis where
  section_id : Int
  relevance_score : Int
  extracted_content : Option String
deriving DecidableEq

/-- The parsed JSON reply of the section-analysis Oracle call. -/
structure SectionsOracleOutput where
  page_type : Option String
  sections_analysis : List SectionAnalysis
  content_summary : Option String
deriving DecidableEq

/-- The compiled result record of `_extract_content_by_sections`
(lines 398-405). -/
structure SectionExtractionResult where
  page_type : String
  relevance_score : Int
  key_content : List (String × String)
  sections_analysis : List SectionAnalysis
  reasoning : String
  content_summary : String
deriving DecidableEq

/-- Python list indexing with negative wrap-around; `none` models the
`IndexError` that the surrounding `except` would catch. -/
def pyGetIdx {α : Type} (l : List α) (i : Int) : Option α :=
  if 0 ≤ i then l.get? i.toNat
  else
    let j := (l.length : Int) + i
    if 0 ≤ j then l.get? j.toNat else none

/-- The key-content accumulation loop of lines 384-393: collect every
relevance score; for a section scoring ≥ 4 whose analysis carries an
`extracted_content` key, insert its block into the dict under
`section_{id}_{name}`, where the name falls back to `section_{id}` when
the id is not below `len(sections)`.  `none` models an uncaught indexing
exception (negative ids past the front), which the source's `except`
turns into the whole-page fallback. -/
def compileSectionsLoop (sections : List SectionInfo) :
    List SectionAnalysis → List (String × String) → List Int →
    Option (List (String × String) × List Int)
| [], kc, scores => some (kc, scores)
| a :: rest, kc, scores =>
    let scores := scores ++ [a.relevance_score]
    if 4 ≤ a.relevance_score ∧ a.extracted_content.isSome then
      let nameOpt : Option String :=
        if a.section_id < (sections.length : Int) then
          (pyGetIdx sections a.section_id).map (fun s => s.name)
        else some ("section_" ++ toString a.section_id)
      match nameOpt, a.extracted_content with
      | some section_name, some content =>
          compileSectionsLoop sections rest
            (dictInsert kc ("section_" ++ toString a.section_id ++ "_" ++ section_name) content)
            scores
      | _, _ => none
    else compileSectionsLoop sections rest kc scores

/-- Python `max(scores)` with the source's `if section_scores else 0`. -/
def pyMaxD0 : List Int → Int
| [] => 0
| x :: xs => xs.foldl max x

/-- The result-compilation step of `_extract_content_by_sections`
(lines 381-405), applied to the parsed Oracle reply: page-level relevance
is the MAXIMUM of the section scores (not the average), and `key_content`
holds exactly the blocks of sections scoring ≥ 4. -/
def compile_section_extraction (sections : List SectionInfo)
    (extracted : SectionsOracleOutput) : Option SectionExtractionResult :=
  match compileSectionsLoop sections extracted.sections_analysis [] [] with
  | none => none
  | some r =>
      let overall_relevance := pyMaxD0 r.2
      some { page_type := extracted.page_type.getD "unknown",
             relevance_score := overall_relevance,
             key_content := r.1,
             sections_analysis := extracted.sections_analysis,
             reasoning := "Analyzed " ++ toString sections.length ++
               " sections. Best section scored " ++ toString overall_relevance ++ "/10.",
             content_summary := extracted.content_summary.getD "No summary available" }

/-- The dict key `section_{id}_{name}` built at lines 392-393, with the
name falling back to `section_{id}` when the id is not below
`len(sections)`; used to state what `compileSectionsLoop` inserts. -/
def sectionKey (sections : List SectionInfo) (id : Int) : String :=
  "section_" ++ toString id ++ "_" ++
    (if id < (sections.length : Int) then
      match pyGetIdx sections id with
      | some s => s.name
      | none => ""
    else "section_" ++ toString id)

/-! ## Concrete environments used as counterexample runs -/

/-- An anchor inside the main content with no low-value keywords. -/
def mkAnchor (href : String) (text : String) : Anchor :=
  { href := href, anchor_text := text, context := "", title := "",
    aria_label := "", is_navigation := false, is_main_content := true,
    is_prominent := false }

/-- A tiny site on domain `s`: the root links to four same-domain pages,
which are leaves; every page gets LLM relevance 0. -/
def envWide : Env :=
  { fetch := fun u =>
      if u == "h://s/" then
        some { anchors := [mkAnchor "h://s/a" "aa", mkAnchor "h://s/b" "bb",
                           mkAnchor "h://s/c" "cc", mkAnchor "h://s/d" "dd"],
               extraction := { relevance_score := 0, page_type := "t" } }
      else if u == "h://s/a" || u == "h://s/b" || u == "h://s/c" || u == "h://s/d" then
        some { anchors := [], extraction := { relevance_score := 0, page_type := "t" } }
      else none,
    navReply := fun _ => none,
    structureReply := none }

/-- A two-page site on domain `s`: the root links only to `h://s/a`. -/
def envNarrow : Env :=
  { fetch := fun u =>
      if u == "h://s/" then
        some { anchors := [mkAnchor "h://s/a" "aa"],
               extraction := { relevance_score := 0, page_type := "t" } }
      else if u == "h://s/a" then
        some { anchors := [], extraction := { relevance_score := 0, page_type := "t" } }
      else none,
    navReply := fun _ => none,
    structureReply := none }

/-! ## Frame and invariant lemmas -/

lemma update_site_visited (st : Crawler) (u : String) (r : ExtractionResult) :
    (_update_site_knowledge st u r).visited_urls = st.visited_urls := by
  unfold _update_site_knowledge
  dsimp only
  repeat' split
  all_goals rfl

lemma update_site_max_pages (st : Crawler) (u : String) (r : ExtractionResult) :
    (_update_site_knowledge st u r).max_pages = st.max_pages := by
  unfold _update_site_knowledge
  dsimp only
  repeat' split
  all_goals rfl

lemma crawl_page_visited (env : Env) (st : Crawler) (u : String) :
    (_crawl_page env st u).1.visited_urls = st.visited_urls := by
  unfold _crawl_page
  cases env.fetch u <;> simp [update_site_visited]

lemma crawl_page_max_pages (env : Env) (st : Crawler) (u : String) :
    (_crawl_page env st u).1.max_pages = st.max_pages := by
  unfold _crawl_page
  cases env.fetch u <;> simp [update_site_max_pages]

lemma extract_links_avoid_mutation (st : Crawler) (a : List Anchor) (b : String) :
    (_extract_links_with_context st a b).1.crawl_objective_analysis.url_patterns_to_avoid =
      Option.map (fun l => l ++ hardcodedAvoidPatterns)
        st.crawl_objective_analysis.url_patterns_to_avoid := by
  unfold _extract_links_with_context
  cases h : st.crawl_objective_analysis.url_patterns_to_avoid <;> simp [h]

lemma extract_links_visited (st : Crawler) (a : List Anchor) (b : String) :
    (_extract_links_with_context st a b).1.visited_urls = st.visited_urls := by
  unfold _extract_links_with_context
  cases h : st.crawl_objective_analysis.url_patterns_to_avoid <;> simp [h]

lemma extract_links_max_pages (st : Crawler) (a : List Anchor) (b : String) :
    (_extract_links_with_context st a b).1.max_pages = st.max_pages := by
  unfold _extract_links_with_context
  cases h : st.crawl_objective_analysis.url_patterns_to_avoid <;> simp [h]

lemma batch_visited_len (env : Env) :
    ∀ (urls : List String) (st : Crawler),
      (_crawl_pages_batch env st urls).1.visited_urls.length ≤
        st.visited_urls.length + urls.length := by
  intro urls
  induction urls with
  | nil => intro st; simp [_crawl_pages_batch]
  | cons u rest ih =>
      intro st
      unfold _crawl_pages_batch
      split
      · have h2 := ih st
        simp only [List.length_cons]
        omega
      · dsimp only
        rcases hcp : _crawl_page env { st with visited_urls := st.visited_urls ++ [u] } u with
          ⟨st2, pd⟩
        have hv2 : st2.visited_urls = st.visited_urls ++ [u] := by
          have hh := crawl_page_visited env { st with visited_urls := st.visited_urls ++ [u] } u
          rw [hcp] at hh
          exact hh
        cases pd with
        | none =>
            dsimp only
            have h2 := ih st2
            rw [hv2] at h2
            simp only [List.length_append, List.length_cons, List.length_nil] at h2 ⊢
            omega
        | some p =>
            dsimp only
            have h2 := ih st2
            rw [hv2] at h2
            simp only [List.length_append, List.length_cons, List.length_nil] at h2 ⊢
            omega

lemma batch_max_pages (env : Env) :
    ∀ (urls : List String) (st : Crawler),
      (_crawl_pages_batch env st urls).1.max_pages = st.max_pages := by
  intro urls
  induction urls with
  | nil => intro st; simp [_crawl_pages_batch]
  | cons u rest ih =>
      intro st
      unfold _crawl_pages_batch
      split
      · exact ih st
      · dsimp only
        rcases hcp : _crawl_page env { st with visited_urls := st.visited_urls ++ [u] } u with
          ⟨st2, pd⟩
        have hm2 : st2.max_pages = st.max_pages := by
          have hh := crawl_page_max_pages env { st with visited_urls := st.visited_urls ++ [u] } u
          rw [hcp] at hh
          exact hh
        cases pd with
        | none => dsimp only; rw [ih st2, hm2]
        | some p => dsimp only; rw [ih st2, hm2]

lemma batch_visited_nodup (env : Env) :
    ∀ (urls : List String) (st : Crawler),
      st.visited_urls.Nodup → (_crawl_pages_batch env st urls).1.visited_urls.Nodup := by
  intro urls
  induction urls with
  | nil => intro st h; simpa [_crawl_pages_batch] using h
  | cons u rest ih =>
      intro st h
      unfold _crawl_pages_batch
      split
      · exact ih st h
      · rename_i hnotmem
        dsimp only
        rcases hcp : _crawl_page env { st with visited_urls := st.visited_urls ++ [u] } u with
          ⟨st2, pd⟩
        have hv2 : st2.visited_urls = st.visited_urls ++ [u] := by
          have hh := crawl_page_visited env { st with visited_urls := st.visited_urls ++ [u] } u
          rw [hcp] at hh
          exact hh
        have hnd2 : st2.visited_urls.Nodup := by
          rw [hv2, List.nodup_append]
          refine ⟨h, List.nodup_singleton u, ?_⟩
          intro x hx
          simp only [List.mem_singleton]
          intro hxu
          exact hnotmem (hxu ▸ hx)
        cases pd with
        | none => dsimp only; exact ih st2 hnd2
        | some p => dsimp only; exact ih st2 hnd2

lemma processRecon_visited (env : Env) (acc : Crawler × List String) (pd : PageData) :
    (processReconResult env acc pd).1.visited_urls = acc.1.visited_urls := by
  unfold processReconResult
  cases env.fetch pd.url with
  | none => rfl
  | some fp =>
      dsimp only
      split
      · rw [extract_links_visited]
      · rw [extract_links_visited]

lemma processRecon_max_pages (env : Env) (acc : Crawler × List String) (pd : PageData) :
    (processReconResult env acc pd).1.max_pages = acc.1.max_pages := by
  unfold processReconResult
  cases env.fetch pd.url with
  | none => rfl
  | some fp =>
      dsimp only
      split
      · rw [extract_links_max_pages]
      · rw [extract_links_max_pages]

lemma processDeep_visited (env : Env) (acc : Crawler × List String) (pd : PageData) :
    (processDeepResult env acc pd).1.visited_urls = acc.1.visited_urls := by
  unfold processDeepResult
  cases env.fetch pd.url with
  | none => rfl
  | some fp =>
      dsimp only
      split
      · rw [extract_links_visited]
      · rw [extract_links_visited]

lemma processDeep_max_pages (env : Env) (acc : Crawler × List String) (pd : PageData) :
    (processDeepResult env acc pd).1.max_pages = acc.1.max_pages := by
  unfold processDeepResult
  cases env.fetch pd.url with
  | none => rfl
  | some fp =>
      dsimp only
      split
      · rw [extract_links_max_pages]
      · rw [extract_links_max_pages]

lemma foldRecon_visited (env : Env) :
    ∀ (pds : List PageData) (acc : Crawler × List String),
      (pds.foldl (processReconResult env) acc).1.visited_urls = acc.1.visited_urls := by
  intro pds
  induction pds with
  | nil => intro acc; rfl
  | cons p rest ih =>
      intro acc
      rw [List.foldl_cons, ih (processReconResult env acc p), processRecon_visited]

lemma foldRecon_max_pages (env : Env) :
    ∀ (pds : List PageData) (acc : Crawler × List String),
      (pds.foldl (processReconResult env) acc).1.max_pages = acc.1.max_pages := by
  intro pds
  induction pds with
  | nil => intro acc; rfl
  | cons p rest ih =>
      intro acc
      rw [List.foldl_cons, ih (processReconResult env acc p), processRecon_max_pages]

lemma foldDeep_visited (env : Env) :
    ∀ (pds : List PageData) (acc : Crawler × List String),
      (pds.foldl (processDeepResult env) acc).1.visited_urls = acc.1.visited_urls := by
  intro pds
  induction pds with
  | nil => intro acc; rfl
  | cons p rest ih =>
      intro acc
      rw [List.foldl_cons, ih (processDeepResult env acc p), processDeep_visited]

lemma foldDeep_max_pages (env : Env) :
    ∀ (pds : List PageData) (acc : Crawler × List String),
      (pds.foldl (processDeepResult env) acc).1.max_pages = acc.1.max_pages := by
  intro pds
  induction pds with
  | nil => intro acc; rfl
  | cons p rest ih =>
      intro acc
      rw [List.foldl_cons, ih (processDeepResult env acc p), processDeep_max_pages]

/-- The reconnaissance loop keeps the visited count within its budget:
each iteration pops at most `recon_budget - |visited|` fresh URLs. -/
lemma reconLoop_visited_le (env : Env) (B : Nat) :
    ∀ (fuel : Nat) (st : Crawler) (q : List String),
      st.visited_urls.length ≤ B →
      (reconLoop env B fuel (st, q)).1.visited_urls.length ≤ B := by
  intro fuel
  induction fuel with
  | zero => intro st q h; exact h
  | succ n ih =>
      intro st q h
      unfold reconLoop
      split
      · exact h
      · rename_i hcond
        have hlt : st.visited_urls.length < B := by
          rcases Nat.lt_or_ge st.visited_urls.length B with hl | hg
          · exact hl
          · exfalso
            apply hcond
            simp [Nat.le_of_lt_succ, decide_eq_true_eq]
            omega
        dsimp only
        split
        · exact ih _ _ h
        · rcases hb : _crawl_pages_batch env st
            ((q.take (min (min st.concurrency (B - st.visited_urls.length)) q.length)).filter
              (fun u => u ∉ st.visited_urls)) with ⟨st', res⟩
          have hlen := batch_visited_len env
            ((q.take (min (min st.concurrency (B - st.visited_urls.length)) q.length)).filter
              (fun u => u ∉ st.visited_urls)) st
          rw [hb] at hlen
          dsimp only at hlen
          have hfl : ((q.take (min (min st.concurrency (B - st.visited_urls.length)) q.length)).filter
              (fun u => u ∉ st.visited_urls)).length ≤ B - st.visited_urls.length := by
            calc _ ≤ (q.take (min (min st.concurrency (B - st.visited_urls.length)) q.length)).length :=
                  List.length_filter_le _ _
              _ ≤ min (min st.concurrency (B - st.visited_urls.length)) q.length :=
                  le_of_eq (List.length_take_of_le (Nat.min_le_right _ _))
              _ ≤ B - st.visited_urls.length := le_trans (Nat.min_le_left _ _) (Nat.min_le_right _ _)
          have hst' : st'.visited_urls.length ≤ B := by omega
          have := ih (res.foldl (processReconResult env) (st', q.drop (min (min st.concurrency (B - st.visited_urls.length)) q.length))).1
            (res.foldl (processReconResult env) (st', q.drop (min (min st.concurrency (B - st.visited_urls.length)) q.length))).2
            (by rw [foldRecon_visited]; exact hst')
          simpa using this

lemma reconLoop_max_pages (env : Env) (B : Nat) :
    ∀ (fuel : Nat) (st : Crawler) (q : List String),
      (reconLoop env B fuel (st, q)).1.max_pages = st.max_pages := by
  intro fuel
  induction fuel with
  | zero => intro st q; rfl
  | succ n ih =>
      intro st q
      unfold reconLoop
      split
      · rfl
      · dsimp only
        split
        · exact ih _ _
        · rename_i hne
          have hb := batch_max_pages env
            ((q.take (min (min st.concurrency (B - st.visited_urls.length)) q.length)).filter
              (fun u => u ∉ st.visited_urls)) st
          have hf := foldRecon_max_pages env
            (_crawl_pages_batch env st
              ((q.take (min (min st.concurrency (B - st.visited_urls.length)) q.length)).filter
                (fun u => u ∉ st.visited_urls))).2
            ((_crawl_pages_batch env st
              ((q.take (min (min st.concurrency (B - st.visited_urls.length)) q.length)).filter
                (fun u => u ∉ st.visited_urls))).1,
             q.drop (min (min st.concurrency (B - st.visited_urls.length)) q.length))
          have hrec := ih
            (List.foldl (processReconResult env)
              ((_crawl_pages_batch env st
                ((q.take (min (min st.concurrency (B - st.visited_urls.length)) q.length)).filter
                  (fun u => u ∉ st.visited_urls))).1,
               q.drop (min (min st.concurrency (B - st.visited_urls.length)) q.length))
              (_crawl_pages_batch env st
                ((q.take (min (min st.concurrency (B - st.visited_urls.length)) q.length)).filter
                  (fun u => u ∉ st.visited_urls))).2).1
            (List.foldl (processReconResult env)
              ((_crawl_pages_batch env st
                ((q.take (min (min st.concurrency (B - st.visited_urls.length)) q.length)).filter
                  (fun u => u ∉ st.visited_urls))).1,
               q.drop (min (min st.concurrency (B - st.visited_urls.length)) q.length))
              (_crawl_pages_batch env st
                ((q.take (min (min st.concurrency (B - st.visited_urls.length)) q.length)).filter
                  (fun u => u ∉ st.visited_urls))).2).2
          dsimp only at hf
          rw [hf, hb] at hrec
          exact hrec

lemma reconLoop_nodup (env : Env) (B : Nat) :
    ∀ (fuel : Nat) (st : Crawler) (q : List String),
      st.visited_urls.Nodup →
      (reconLoop env B fuel (st, q)).1.visited_urls.Nodup := by
  intro fuel
  induction fuel with
  | zero => intro st q h; exact h
  | succ n ih =>
      intro st q h
      unfold reconLoop
      split
      · exact h
      · dsimp only
        split
        · exact ih _ _ h
        · have hnd := batch_visited_nodup env
            ((q.take (min (min st.concurrency (B - st.visited_urls.length)) q.length)).filter
              (fun u => u ∉ st.visited_urls)) st h
          have := ih (List.foldl (processReconResult env)
              ((_crawl_pages_batch env st
                ((q.take (min (min st.concurrency (B - st.visited_urls.length)) q.length)).filter
                  (fun u => u ∉ st.visited_urls))).1,
               q.drop (min (min st.concurrency (B - st.visited_urls.length)) q.length))
              (_crawl_pages_batch env st
                ((q.take (min (min st.concurrency (B - st.visited_urls.length)) q.length)).filter
                  (fun u => u ∉ st.visited_urls))).2).1
            (List.foldl (processReconResult env)
              ((_crawl_pages_batch env st
                ((q.take (min (min st.concurrency (B - st.visited_urls.length)) q.length)).filter
                  (fun u => u ∉ st.visited_urls))).1,
               q.drop (min (min st.concurrency (B - st.visited_urls.length)) q.length))
              (_crawl_pages_batch env st
                ((q.take (min (min st.concurrency (B - st.visited_urls.length)) q.length)).filter
                  (fun u => u ∉ st.visited_urls))).2).2
            (by rw [foldRecon_visited]; exact hnd)
          simpa using this

lemma deepLoop_visited_le (env : Env) (n : Nat) :
    ∀ (fuel : Nat) (st : Crawler) (q : List String),
      st.visited_urls.length ≤ n → st.max_pages ≤ n →
      (deepLoop env fuel (st, q)).1.visited_urls.length ≤ n := by
  intro fuel
  induction fuel with
  | zero => intro st q h hmp; exact h
  | succ m ih =>
      intro st q h hmp
      unfold deepLoop
      split
      · exact h
      · rename_i hcond
        have hlt : st.visited_urls.length < st.max_pages := by
          rcases Nat.lt_or_ge st.visited_urls.length st.max_pages with hl | hg
          · exact hl
          · exfalso
            apply hcond
            simp [decide_eq_true_eq]
            omega
        dsimp only
        split
        · exact ih _ _ h hmp
        · rcases hb : _crawl_pages_batch env st
            ((q.take (min (min (max 2 (st.concurrency / 2)) (st.max_pages - st.visited_urls.length)) q.length)).filter
              (fun u => u ∉ st.visited_urls)) with ⟨st', res⟩
          have hlen := batch_visited_len env
            ((q.take (min (min (max 2 (st.concurrency / 2)) (st.max_pages - st.visited_urls.length)) q.length)).filter
              (fun u => u ∉ st.visited_urls)) st
          rw [hb] at hlen
          dsimp only at hlen
          have hmpb := batch_max_pages env
            ((q.take (min (min (max 2 (st.concurrency / 2)) (st.max_pages - st.visited_urls.length)) q.length)).filter
              (fun u => u ∉ st.visited_urls)) st
          rw [hb] at hmpb
          dsimp only at hmpb
          have hfl : ((q.take (min (min (max 2 (st.concurrency / 2)) (st.max_pages - st.visited_urls.length)) q.length)).filter
              (fun u => u ∉ st.visited_urls)).length ≤ st.max_pages - st.visited_urls.length := by
            calc _ ≤ (q.take (min (min (max 2 (st.concurrency / 2)) (st.max_pages - st.visited_urls.length)) q.length)).length :=
                  List.length_filter_le _ _
              _ ≤ min (min (max 2 (st.concurrency / 2)) (st.max_pages - st.visited_urls.length)) q.length :=
                  le_of_eq (List.length_take_of_le (Nat.min_le_right _ _))
              _ ≤ st.max_pages - st.visited_urls.length :=
                  le_trans (Nat.min_le_left _ _) (Nat.min_le_right _ _)
          have hst' : st'.visited_urls.length ≤ n := by omega
          have hmps : (List.foldl (processDeepResult env)
              (st', q.drop (min (min (max 2 (st.concurrency / 2)) (st.max_pages - st.visited_urls.length)) q.length))
              res).1.max_pages ≤ n := by
            rw [foldDeep_max_pages]
            dsimp only
            omega
          have := ih (List.foldl (processDeepResult env)
              (st', q.drop (min (min (max 2 (st.concurrency / 2)) (st.max_pages - st.visited_urls.length)) q.length))
              res).1
            (List.foldl (processDeepResult env)
              (st', q.drop (min (min (max 2 (st.concurrency / 2)) (st.max_pages - st.visited_urls.length)) q.length))
              res).2
            (by rw [foldDeep_visited]; exact hst') hmps
          simpa using this

lemma deepLoop_nodup (env : Env) :
    ∀ (fuel : Nat) (st : Crawler) (q : List String),
      st.visited_urls.Nodup →
      (deepLoop env fuel (st, q)).1.visited_urls.Nodup := by
  intro fuel
  induction fuel with
  | zero => intro st q h; exact h
  | succ m ih =>
      intro st q h
      unfold deepLoop
      split
      · exact h
      · dsimp only
        split
        · exact ih _ _ h
        · have hnd := batch_visited_nodup env
            ((q.take (min (min (max 2 (st.concurrency / 2)) (st.max_pages - st.visited_urls.length)) q.length)).filter
              (fun u => u ∉ st.visited_urls)) st h
          have := ih (List.foldl (processDeepResult env)
              ((_crawl_pages_batch env st
                ((q.take (min (min (max 2 (st.concurrency / 2)) (st.max_pages - st.visited_urls.length)) q.length)).filter
                  (fun u => u ∉ st.visited_urls))).1,
               q.drop (min (min (max 2 (st.concurrency / 2)) (st.max_pages - st.visited_urls.length)) q.length))
              (_crawl_pages_batch env st
                ((q.take (min (min (max 2 (st.concurrency / 2)) (st.max_pages - st.visited_urls.length)) q.length)).filter
                  (fun u => u ∉ st.visited_urls))).2).1
            (List.foldl (processDeepResult env)
              ((_crawl_pages_batch env st
                ((q.take (min (min (max 2 (st.concurrency / 2)) (st.max_pages - st.visited_urls.length)) q.length)).filter
                  (fun u => u ∉ st.visited_urls))).1,
               q.drop (min (min (max 2 (st.concurrency / 2)) (st.max_pages - st.visited_urls.length)) q.length))
              (_crawl_pages_batch env st
                ((q.take (min (min (max 2 (st.concurrency / 2)) (st.max_pages - st.visited_urls.length)) q.length)).filter
                  (fun u => u ∉ st.visited_urls))).2).2
            (by rw [foldDeep_visited]; exact hnd)
          simpa using this

lemma deepLoop_at_budget (env : Env) (fuel : Nat) (st : Crawler) (q : List String)
    (h : st.max_pages ≤ st.visited_urls.length) :
    deepLoop env fuel (st, q) = (st, q) := by
  cases fuel with
  | zero => rfl
  | succ n =>
      unfold deepLoop
      have hc : (q.isEmpty || decide (st.max_pages ≤ st.visited_urls.length)) = true := by
        simp [h]
      rw [hc]
      simp

lemma extractLinksFromPage_visited (env : Env) (st : Crawler) (u : String) :
    (extractLinksFromPage env st u).1.visited_urls = st.visited_urls := by
  unfold extractLinksFromPage
  cases env.fetch u with
  | none => rfl
  | some fp => dsimp only; rw [extract_links_visited]

lemma extractLinksFromPage_max_pages (env : Env) (st : Crawler) (u : String) :
    (extractLinksFromPage env st u).1.max_pages = st.max_pages := by
  unfold extractLinksFromPage
  cases env.fetch u with
  | none => rfl
  | some fp => dsimp only; rw [extract_links_max_pages]

lemma seedFold_visited (env : Env) :
    ∀ (pages : List PageData) (acc : Crawler × List String),
      (pages.foldl (fun (acc : Crawler × List String) p =>
        ((extractLinksFromPage env acc.1 p.url).1,
         acc.2 ++ (extractLinksFromPage env acc.1 p.url).2)) acc).1.visited_urls =
      acc.1.visited_urls := by
  intro pages
  induction pages with
  | nil => intro acc; rfl
  | cons p rest ih =>
      intro acc
      rw [List.foldl_cons, ih]
      exact extractLinksFromPage_visited env acc.1 p.url

lemma seedFold_max_pages (env : Env) :
    ∀ (pages : List PageData) (acc : Crawler × List String),
      (pages.foldl (fun (acc : Crawler × List String) p =>
        ((extractLinksFromPage env acc.1 p.url).1,
         acc.2 ++ (extractLinksFromPage env acc.1 p.url).2)) acc).1.max_pages =
      acc.1.max_pages := by
  intro pages
  induction pages with
  | nil => intro acc; rfl
  | cons p rest ih =>
      intro acc
      rw [List.foldl_cons, ih]
      exact extractLinksFromPage_max_pages env acc.1 p.url

lemma seed_visited (env : Env) (st : Crawler) :
    (seedDeepQueue env st).1.visited_urls = st.visited_urls := by
  unfold seedDeepQueue
  dsimp only
  exact seedFold_visited env _ _

lemma seed_max_pages (env : Env) (st : Crawler) :
    (seedDeepQueue env st).1.max_pages = st.max_pages := by
  unfold seedDeepQueue
  dsimp only
  exact seedFold_max_pages env _ _

lemma structure_update_visited (env : Env) (st : Crawler) :
    (_analyze_site_structure_update env st).visited_urls = st.visited_urls := by
  unfold _analyze_site_structure_update
  cases env.structureReply <;> rfl

lemma structure_update_max_pages (env : Env) (st : Crawler) :
    (_analyze_site_structure_update env st).max_pages = st.max_pages := by
  unfold _analyze_site_structure_update
  cases env.structureReply <;> rfl

/-! ## Helper lemmas for the claim theorems -/

lemma clampScore_nonneg (s : Int) : 0 ≤ clampScore s := le_max_left _ _

lemma clampScore_le (s : Int) : clampScore s ≤ 20 :=
  max_le (by norm_num) (min_le_left _ _)

lemma score_nonneg (st : Crawler) (link : Link) :
    0 ≤ _score_link_relevance_heuristic st link := by
  unfold _score_link_relevance_heuristic
  dsimp only
  exact clampScore_nonneg _

lemma score_le (st : Crawler) (link : Link) :
    _score_link_relevance_heuristic st link ≤ 20 := by
  unfold _score_link_relevance_heuristic
  dsimp only
  exact clampScore_le _

lemma dictInsert_fresh {α : Type} (d : List (String × α)) (k : String) (v : α)
    (h : k ∉ d.map Prod.fst) : dictInsert d k v = d ++ [(k, v)] := by
  unfold dictInsert
  rw [if_neg]
  intro hc
  rw [List.any_eq_true] at hc
  obtain ⟨p, hp, he⟩ := hc
  apply h
  rw [List.mem_map]
  exact ⟨p, hp, (beq_iff_eq.mp he)⟩

lemma pyGetIdx_nonneg {α : Type} (l : List α) (i : Int) (h : 0 ≤ i) :
    pyGetIdx l i = l.get? i.toNat := by
  unfold pyGetIdx
  rw [if_pos h]

lemma navFold_filterMap (cands : List String) :
    ∀ (nums : List String) (acc : List String),
      nums.foldl (fun acc num =>
        let idx : Int := (natFromDigits num : Int) - 1
        if 0 ≤ idx ∧ idx < (cands.length : Int) then
          match cands.get? idx.toNat with
          | some url => acc ++ [url]
          | none => acc
        else acc) acc
      = acc ++ nums.filterMap (fun num =>
          let idx : Int := (natFromDigits num : Int) - 1
          if 0 ≤ idx ∧ idx < (cands.length : Int) then cands.get? idx.toNat else none) := by
  intro nums
  induction nums with
  | nil => intro acc; simp
  | cons num rest ih =>
      intro acc
      rw [List.foldl_cons, List.filterMap_cons]
      dsimp only
      by_cases hc : 0 ≤ (natFromDigits num : Int) - 1 ∧
          (natFromDigits num : Int) - 1 < (cands.length : Int)
      · rw [if_pos hc, if_pos hc]
        cases hg : cands.get? ((natFromDigits num : Int) - 1).toNat with
        | none =>
            exfalso
            rw [List.get?_eq_none] at hg
            omega
        | some url =>
            rw [ih (acc ++ [url])]
            simp
      · rw [if_neg hc, if_neg hc]
        exact ih acc

lemma compileLoop_spec (sections : List SectionInfo) :
    ∀ (analyses : List SectionAnalysis) (kc : List (String × String)) (scores : List Int),
      (∀ a ∈ analyses, 0 ≤ a.section_id) →
      ((analyses.map (fun a => sectionKey sections a.section_id)).Nodup) →
      (∀ a ∈ analyses, sectionKey sections a.section_id ∉ kc.map Prod.fst) →
      ∃ pr, compileSectionsLoop sections analyses kc scores = some pr ∧
        pr.2 = scores ++ analyses.map (fun a => a.relevance_score) ∧
        pr.1 = kc ++ analyses.filterMap (fun a =>
          match a.extracted_content with
          | some c =>
              if 4 ≤ a.relevance_score then some (sectionKey sections a.section_id, c) else none
          | none => none) := by
  intro analyses
  induction analyses with
  | nil =>
      intro kc scores _ _ _
      exact ⟨(kc, scores), rfl, by simp, by simp⟩
  | cons a rest ih =>
      intro kc scores hpos hnd hfresh
      have hpos_a : 0 ≤ a.section_id := hpos a (List.mem_cons_self a rest)
      have hpos_rest : ∀ x ∈ rest, 0 ≤ x.section_id :=
        fun x hx => hpos x (List.mem_cons_of_mem a hx)
      rw [List.map_cons, List.nodup_cons] at hnd
      obtain ⟨hka, hnd_rest⟩ := hnd
      -- the loop's key computation agrees with `sectionKey` when the id is nonnegative
      have hkey : (if a.section_id < (sections.length : Int) then
            (pyGetIdx sections a.section_id).map (fun s => s.name)
          else some ("section_" ++ toString a.section_id)) =
          some (if a.section_id < (sections.length : Int) then
            match pyGetIdx sections a.section_id with
            | some s => s.name
            | none => ""
          else "section_" ++ toString a.section_id) := by
        by_cases hlen : a.section_id < (sections.length : Int)
        · rw [if_pos hlen, if_pos hlen]
          rw [pyGetIdx_nonneg sections a.section_id hpos_a]
          cases hg : sections.get? a.section_id.toNat with
          | none =>
              exfalso
              rw [List.get?_eq_none] at hg
              omega
          | some s => rfl
        · rw [if_neg hlen, if_neg hlen]
      unfold compileSectionsLoop
      by_cases hrel : 4 ≤ a.relevance_score ∧ a.extracted_content.isSome
      · rw [if_pos hrel]
        obtain ⟨hr4, hsome⟩ := hrel
        obtain ⟨c, hc⟩ := Option.isSome_iff_exists.mp hsome
        rw [hc, hkey]
        dsimp only
        have hins := dictInsert_fresh kc (sectionKey sections a.section_id) c
          (hfresh a (List.mem_cons_self a rest))
        have hfresh' : ∀ x ∈ rest, sectionKey sections x.section_id ∉
            (dictInsert kc ("section_" ++ toString a.section_id ++ "_" ++
              (if a.section_id < (sections.length : Int) then
                match pyGetIdx sections a.section_id with
                | some s => s.name
                | none => ""
              else "section_" ++ toString a.section_id)) c).map Prod.fst := by
          intro x hx
          have : ("section_" ++ toString a.section_id ++ "_" ++
              (if a.section_id < (sections.length : Int) then
                match pyGetIdx sections a.section_id with
                | some s => s.name
                | none => ""
              else "section_" ++ toString a.section_id)) = sectionKey sections a.section_id := rfl
          rw [this, hins]
          rw [List.map_append, List.mem_append]
          rintro (hin | hin)
          · exact hfresh x (List.mem_cons_of_mem a hx) hin
          · simp only [List.map_cons, List.map_nil, List.mem_singleton] at hin
            apply hka
            rw [← hin]
            exact List.mem_map_of_mem _ hx
        obtain ⟨pr, hpr, hs, hkc⟩ := ih
          (dictInsert kc ("section_" ++ toString a.section_id ++ "_" ++
            (if a.section_id < (sections.length : Int) then
              match pyGetIdx sections a.section_id with
              | some s => s.name
              | none => ""
            else "section_" ++ toString a.section_id)) c)
          (scores ++ [a.relevance_score]) hpos_rest hnd_rest hfresh'
        refine ⟨pr, hpr, ?_, ?_⟩
        · rw [hs]
          simp
        · rw [hkc]
          have hsk : ("section_" ++ toString a.section_id ++ "_" ++
              (if a.section_id < (sections.length : Int) then
                match pyGetIdx sections a.section_id with
                | some s => s.name
                | none => ""
              else "section_" ++ toString a.section_id)) = sectionKey sections a.section_id := rfl
          rw [hsk, hins]
          rw [List.filterMap_cons]
          rw [hc]
          dsimp only
          rw [if_pos hr4]
          simp
      · rw [if_neg hrel]
        have hfresh_rest : ∀ x ∈ rest, sectionKey sections x.section_id ∉ kc.map Prod.fst :=
          fun x hx => hfresh x (List.mem_cons_of_mem a hx)
        obtain ⟨pr, hpr, hs, hkc⟩ := ih kc (scores ++ [a.relevance_score])
          hpos_rest hnd_rest hfresh_rest
        refine ⟨pr, hpr, ?_, ?_⟩
        · rw [hs]
          simp
        · rw [hkc]
          rw [List.filterMap_cons]
          cases hec : a.extracted_content with
          | none => rfl
          | some c =>
              dsimp only
              rw [if_neg]
              intro h4
              exact hrel ⟨h4, by rw [hec]; rfl⟩

/-! ## Claim theorems -/

/-- C1 (amended).  For every run (any oracle environment, any fuel) started
with an empty visited set, the reconnaissance phase ends with at most
`reconBudget = max(5, maxPages / 10)` visited URLs, and the visited count
never exceeds `max maxPages reconBudget` — equivalently, it never exceeds
`maxPages` whenever `maxPages ≥ 5`.  The original claim's bound `maxPages`
alone fails for `maxPages < 5` (see the counterexample), because the
reconnaissance loop is bounded by `reconBudget = max(5, maxPages // 10)`,
which then exceeds `maxPages`.  Quantifying over the fuel bounds every
intermediate batch boundary of the run, not only the final state. -/
theorem c1_visited_bounds_amended (env : Env) (fuel : Nat) (st : Crawler)
    (start_url : String) (h0 : st.visited_urls = []) :
    (reconPhase env fuel st start_url).1.visited_urls.length ≤ reconBudget st ∧
    (crawl_website env fuel st start_url).visited_urls.length ≤
      max st.max_pages (reconBudget st) := by
  have hrecon : (reconPhase env fuel st start_url).1.visited_urls.length ≤ reconBudget st := by
    unfold reconPhase
    dsimp only
    apply reconLoop_visited_le
    simp [h0]
  have hmaxA : (reconPhase env fuel st start_url).1.max_pages = st.max_pages := by
    unfold reconPhase
    dsimp only
    exact reconLoop_max_pages env _ fuel _ _
  refine ⟨hrecon, ?_⟩
  unfold crawl_website deepPhase
  dsimp only
  apply deepLoop_visited_le
  · rw [seed_visited]
    dsimp only
    rw [structure_update_visited]
    exact le_trans hrecon (le_max_right _ _)
  · rw [seed_max_pages]
    dsimp only
    rw [structure_update_max_pages, hmaxA]
    exact le_max_left _ _

/-- C1 counterexample: with `maxPages = 1` (a positive integer) and
`concurrency = 3`, the run over `envWide` visits 5 pages — strictly more
than `maxPages` — because the reconnaissance budget is
`max(5, 1 // 10) = 5`. -/
theorem c1_visited_exceeds_maxPages_cex :
    (initialCrawler 1 3).max_pages = 1 ∧
    (crawl_website envWide 10 (initialCrawler 1 3) "h://s/").visited_urls.length = 5 ∧
    ¬((crawl_website envWide 10 (initialCrawler 1 3) "h://s/").visited_urls.length ≤
        (initialCrawler 1 3).max_pages) := by
  refine ⟨rfl, by decide, by decide⟩

/-- C1 witness: the amended bound instantiated on the concrete `envWide`
run with `maxPages = 1`. -/
theorem c1_visited_bounds_witness :
    (reconPhase envWide 10 (initialCrawler 1 3) "h://s/").1.visited_urls.length ≤
      reconBudget (initialCrawler 1 3) ∧
    (crawl_website envWide 10 (initialCrawler 1 3) "h://s/").visited_urls.length ≤
      max (initialCrawler 1 3).max_pages (reconBudget (initialCrawler 1 3)) :=
  c1_visited_bounds_amended envWide 10 (initialCrawler 1 3) "h://s/" rfl

/-- C2 (confirmed).  Whenever the Oracle returns a list of per-section
analyses (with well-formed non-negative section ids and distinct section
keys), the compiled page record's relevance equals the MAXIMUM of the
section relevance scores (0 for an empty list), and `key_content` is
exactly the `extracted_content` blocks of the sections scoring ≥ 4, keyed
by `section_{id}_{name}`. -/
theorem c2_section_merge (sections : List SectionInfo) (out : SectionsOracleOutput)
    (hpos : ∀ a ∈ out.sections_analysis, 0 ≤ a.section_id)
    (hnd : (out.sections_analysis.map (fun a => sectionKey sections a.section_id)).Nodup) :
    ∃ r, compile_section_extraction sections out = some r ∧
      r.relevance_score = pyMaxD0 (out.sections_analysis.map (fun a => a.relevance_score)) ∧
      r.key_content = out.sections_analysis.filterMap (fun a =>
        match a.extracted_content with
        | some c =>
            if 4 ≤ a.relevance_score then some (sectionKey sections a.section_id, c) else none
        | none => none) := by
  obtain ⟨pr, hpr, hs, hkc⟩ :=
    compileLoop_spec sections out.sections_analysis [] [] hpos hnd (by simp)
  unfold compile_section_extraction
  rw [hpr]
  dsimp only
  refine ⟨_, rfl, ?_, ?_⟩
  · dsimp only
    rw [hs]
    simp
  · dsimp only
    rw [hkc]
    simp

/-- The three-section page of the C2 scenario. -/
def c2sections : List SectionInfo := [⟨0, "s0"⟩, ⟨1, "s1"⟩, ⟨2, "s2"⟩]

/-- The Oracle reply of the C2 scenario: section relevances [2, 8, 5]. -/
def c2out : SectionsOracleOutput :=
  { page_type := some "article",
    sections_analysis :=
      [⟨0, 2, some "c0"⟩, ⟨1, 8, some "c1"⟩, ⟨2, 5, some "c2"⟩],
    content_summary := some "sum" }

/-- C2 witness: section relevances [2, 8, 5] give page relevance 8 and a
`key_content` holding exactly the blocks of the sections scoring 8 and 5. -/
theorem c2_section_merge_witness :
    ∃ r, compile_section_extraction c2sections c2out = some r ∧
      r.relevance_score = 8 ∧
      r.key_content = [("section_1_s1", "c1"), ("section_2_s2", "c2")] := by
  obtain ⟨r, hr, hrel, hkc⟩ := c2_section_merge c2sections c2out (by decide) (by decide)
  refine ⟨r, hr, ?_, ?_⟩
  · rw [hrel]; decide
  · rw [hkc]; decide

/-- C3 (confirmed).  Whenever the objective-analysis Oracle call fails or
its reply fails to parse as JSON after fence stripping,
`analyze_user_objective` returns EXACTLY the fixed default analysis —
whose `data_types`, `key_fields`, `url_patterns_to_avoid` and
`extraction_strategy` are the documented constants — as a total
replacement (independent of any Oracle output), and leaves the crawler
state untouched (never a partial merge). -/
theorem c3_objective_default_on_failure (st : Crawler) (resp : Option String)
    (parse : String → Option ObjectiveAnalysis)
    (hfail : resp = none ∨ ∃ s, resp = some s ∧ parse (stripFence (pyStrip s)) = none) :
    (analyze_user_objective st resp parse).2 = defaultObjectiveAnalysis ∧
    (analyze_user_objective st resp parse).1 = st ∧
    defaultObjectiveAnalysis.data_types = some ["general content"] ∧
    defaultObjectiveAnalysis.key_fields = some ["title", "content", "links"] ∧
    defaultObjectiveAnalysis.url_patterns_to_avoid = some ["login", "signup", "cart"] ∧
    defaultObjectiveAnalysis.extraction_strategy = some "Extract all available content" := by
  rcases hfail with h | ⟨s, hs, hp⟩
  · subst h
    exact ⟨rfl, rfl, rfl, rfl, rfl, rfl⟩
  · subst hs
    unfold analyze_user_objective
    dsimp only
    rw [hp]
    exact ⟨rfl, rfl, rfl, rfl, rfl, rfl⟩

/-- C3 witness: a malformed (non-JSON) reply yields the documented default
and an unchanged state. -/
theorem c3_objective_default_witness :
    (analyze_user_objective (initialCrawler 50 3) (some "this is not json")
        (fun _ => none)).2 = defaultObjectiveAnalysis ∧
    (analyze_user_objective (initialCrawler 50 3) (some "this is not json")
        (fun _ => none)).1 = initialCrawler 50 3 := by
  have h := c3_objective_default_on_failure (initialCrawler 50 3) (some "this is not json")
    (fun _ => none) (Or.inr ⟨"this is not json", rfl, rfl⟩)
  exact ⟨h.1, h.2.1⟩

/-- C4 counterexample: the reply `"2,5,NONE-ish-garbage,1"` contains the
substring `NONE` (case-insensitively), so the adapter returns the EMPTY
selection — not the candidates at indices 2, 5, 1 as claimed. -/
theorem c4_none_garbage_cex :
    navSelect "2,5,NONE-ish-garbage,1" ["u1", "u2", "u3", "u4", "u5"] = [] ∧
    navSelect "2,5,NONE-ish-garbage,1" ["u1", "u2", "u3", "u4", "u5"] ≠ ["u2", "u5", "u1"] := by
  refine ⟨by decide, by decide⟩

/-- C4 (amended).  The `NONE` check runs FIRST and is a substring test, so
any reply containing `NONE` case-insensitively — including noise like
`NONE-ish-garbage` — yields the empty selection.  Only otherwise does the
adapter extract integer tokens (ignoring non-numeric noise): it takes the
first five, maps each 1-based in-range index back to its candidate,
drops out-of-range indices, and hence returns at most 5 URLs. -/
theorem c4_nav_parsing_amended (resp : String) (cands : List String) :
    (pyContains (pyUpper (pyStrip resp)) "NONE" = true → navSelect resp cands = []) ∧
    (pyContains (pyUpper (pyStrip resp)) "NONE" = false →
      navSelect resp cands = ((digitRuns (pyStrip resp)).take 5).filterMap (fun num =>
        let idx : Int := (natFromDigits num : Int) - 1
        if 0 ≤ idx ∧ idx < (cands.length : Int) then cands.get? idx.toNat else none) ∧
      (navSelect resp cands).length ≤ 5) := by
  constructor
  · intro h
    unfold navSelect
    dsimp only
    rw [if_pos h]
  · intro h
    have heq : navSelect resp cands =
        ((digitRuns (pyStrip resp)).take 5).filterMap (fun num =>
          let idx : Int := (natFromDigits num : Int) - 1
          if 0 ≤ idx ∧ idx < (cands.length : Int) then cands.get? idx.toNat else none) := by
      unfold navSelect
      dsimp only
      rw [if_neg (by simp [h])]
      rw [navFold_filterMap]
      simp
    refine ⟨heq, ?_⟩
    rw [heq]
    exact le_trans (List.length_filterMap_le _ _) (List.length_take_le _ _)

/-- C4 witness: with the noise token but no `NONE`, the reply
`"2,5,garbage,1"` selects exactly the candidates at indices 2, 5, 1. -/
theorem c4_nav_parsing_witness :
    navSelect "2,5,garbage,1" ["u1", "u2", "u3", "u4", "u5"] = ["u2", "u5", "u1"] ∧
    (navSelect "2,5,garbage,1" ["u1", "u2", "u3", "u4", "u5"]).length ≤ 5 := by
  have h := (c4_nav_parsing_amended "2,5,garbage,1" ["u1", "u2", "u3", "u4", "u5"]).2 (by decide)
  refine ⟨?_, h.2⟩
  rw [h.1]
  decide

/-- The state of the C5 failing input: an objective analysis whose
`url_patterns_to_avoid` key is present (holding `["x"]`). -/
def c5_state : Crawler :=
  { initialCrawler 50 3 with crawl_objective_analysis :=
      { emptyAnalysis with url_patterns_to_avoid := some ["x"] } }

/-- C5 (code bug).  The claim — the objective analysis is immutable after
creation — matches the spec, but the source violates it:
`avoid_patterns = self.crawl_objective_analysis.get('url_patterns_to_avoid', [])`
returns a reference to the stored list and the subsequent
`avoid_patterns.extend([...])` (line 503) mutates it in place, so every
call of `_extract_links_with_context` appends the nine hardcoded skip
patterns to the stored analysis.  Evaluated at the failing input: one call
on a crawler whose analysis carries `url_patterns_to_avoid = ["x"]`
changes the analysis, growing the stored list. -/
theorem c5_analysis_mutation_bug :
    (_extract_links_with_context c5_state [] "h://s/").1.crawl_objective_analysis ≠
      c5_state.crawl_objective_analysis ∧
    (_extract_links_with_context c5_state [] "h://s/").1.crawl_objective_analysis.url_patterns_to_avoid =
      some ("x" :: hardcodedAvoidPatterns) ∧
    (_extract_links_with_context (initialCrawler 50 3) [] "h://s/").1.crawl_objective_analysis =
      emptyAnalysis := by
  refine ⟨by decide, by decide, by decide⟩

/-- C6 (confirmed).  Enqueueing a candidate URL is a no-op (the frontier is
unchanged) when the URL is already visited or already queued, and
otherwise appends it at the back (FIFO); moreover every candidate link the
extractor emits — the only links the crawl loops ever enqueue — has a host
exactly equal to the crawl's base domain (`_is_same_domain`, no subdomain
matching) and is not yet visited, so a candidate failing those checks
never reaches the frontier at all. -/
theorem c6_enqueue_semantics (visited q : List String) (url : String) (st : Crawler)
    (anchors : List Anchor) (base : String) :
    (url ∈ visited → enqueueUrl visited q url = q) ∧
    (url ∈ q → enqueueUrl visited q url = q) ∧
    (url ∉ visited → url ∉ q → enqueueUrl visited q url = q ++ [url]) ∧
    (∀ l ∈ (_extract_links_with_context st anchors base).2,
      _is_same_domain st l.url = true ∧ l.url ∉ st.visited_urls) := by
  refine ⟨?_, ?_, ?_, ?_⟩
  · intro h
    unfold enqueueUrl
    rw [if_neg (fun hc => hc.1 h)]
  · intro h
    unfold enqueueUrl
    rw [if_neg (fun hc => hc.2 h)]
  · intro h1 h2
    unfold enqueueUrl
    rw [if_pos ⟨h1, h2⟩]
  · intro l hl
    unfold _extract_links_with_context at hl
    cases hopt : st.crawl_objective_analysis.url_patterns_to_avoid with
    | none =>
        rw [hopt] at hl
        dsimp only at hl
        rw [List.mem_filterMap] at hl
        obtain ⟨a, _ha, hfa⟩ := hl
        split at hfa
        · exact absurd hfa (by simp)
        · split at hfa
          · exact absurd hfa (by simp)
          · split at hfa
            · exact absurd hfa (by simp)
            · rename_i hC1 hC2 hC3
              rw [Option.some.injEq] at hfa
              rw [← hfa]
              dsimp only
              simp at hC2
              exact ⟨hC2.1, hC2.2⟩
    | some avoidList =>
        rw [hopt] at hl
        dsimp only at hl
        rw [List.mem_filterMap] at hl
        obtain ⟨a, _ha, hfa⟩ := hl
        split at hfa
        · exact absurd hfa (by simp)
        · split at hfa
          · exact absurd hfa (by simp)
          · split at hfa
            · exact absurd hfa (by simp)
            · rename_i hC1 hC2 hC3
              rw [Option.some.injEq] at hfa
              rw [← hfa]
              dsimp only
              simp at hC2
              exact ⟨hC2.1, hC2.2⟩

/-- C6 witness: a visited URL and a queued URL are rejected, a fresh one is
appended at the back, and the extractor drops the subdomain anchor
(`h://sub.s/x`) while keeping the exact-domain one. -/
theorem c6_enqueue_witness :
    enqueueUrl ["h://s/a"] ["h://s/b"] "h://s/a" = ["h://s/b"] ∧
    enqueueUrl ["h://s/a"] ["h://s/b"] "h://s/b" = ["h://s/b"] ∧
    enqueueUrl ["h://s/a"] ["h://s/b"] "h://s/c" = ["h://s/b", "h://s/c"] ∧
    (∀ l ∈ (_extract_links_with_context
        { initialCrawler 50 3 with base_domain := "s" }
        [mkAnchor "h://sub.s/x" "xx", mkAnchor "h://s/y" "yy"] "h://s/").2,
      _is_same_domain { initialCrawler 50 3 with base_domain := "s" } l.url = true ∧
      l.url ∉ ({ initialCrawler 50 3 with base_domain := "s" } : Crawler).visited_urls) :=
  ⟨(c6_enqueue_semantics ["h://s/a"] ["h://s/b"] "h://s/a" (initialCrawler 1 1) [] "b").1
      (by decide),
   (c6_enqueue_semantics ["h://s/a"] ["h://s/b"] "h://s/b" (initialCrawler 1 1) [] "b").2.1
      (by decide),
   (c6_enqueue_semantics ["h://s/a"] ["h://s/b"] "h://s/c" (initialCrawler 1 1) [] "b").2.2.1
      (by decide) (by decide),
   (c6_enqueue_semantics [] [] "u" { initialCrawler 50 3 with base_domain := "s" }
      [mkAnchor "h://sub.s/x" "xx", mkAnchor "h://s/y" "yy"] "h://s/").2.2.2⟩

/-- C7 (confirmed).  The heuristic link scorer is pure and deterministic:
it reads only the candidate's features, the objective text, the desired
data types and the objective analysis, so two states agreeing on those
yield the same score; and the returned score always lies in [0, 10] —
in the model's half-point units, in [0, 20], i.e. score/2 ∈ [0, 10]
as rationals. -/
theorem c7_score_pure_bounded (s₁ s₂ : Crawler) (link : Link)
    (h1 : s₁.crawl_objective = s₂.crawl_objective)
    (h2 : s₁.desired_data_types = s₂.desired_data_types)
    (h3 : s₁.crawl_objective_analysis = s₂.crawl_objective_analysis) :
    _score_link_relevance_heuristic s₁ link = _score_link_relevance_heuristic s₂ link ∧
    0 ≤ _score_link_relevance_heuristic s₁ link ∧
    _score_link_relevance_heuristic s₁ link ≤ 20 ∧
    0 ≤ (_score_link_relevance_heuristic s₁ link : ℚ) / 2 ∧
    (_score_link_relevance_heuristic s₁ link : ℚ) / 2 ≤ 10 := by
  have hdet : _score_link_relevance_heuristic s₁ link = _score_link_relevance_heuristic s₂ link := by
    unfold _score_link_relevance_heuristic
    rw [h1, h2, h3]
  have hlo := score_nonneg s₁ link
  have hhi := score_le s₁ link
  refine ⟨hdet, hlo, hhi, ?_, ?_⟩
  · apply div_nonneg _ (by norm_num)
    exact_mod_cast hlo
  · rw [div_le_iff₀ (by norm_num : (0:ℚ) < 2)]
    calc ((_score_link_relevance_heuristic s₁ link : ℚ)) ≤ 20 := by exact_mod_cast hhi
      _ = 10 * 2 := by norm_num

/-- C7 witness: two crawler states differing in configuration but agreeing
on objective, data types and analysis give the same in-range score for a
concrete link. -/
theorem c7_score_pure_witness :
    _score_link_relevance_heuristic (initialCrawler 50 3)
        { url := "h://s/login", anchor_text := "Login to your account", context := "",
          title := "", aria_label := "", is_navigation := false, is_main_content := false,
          is_prominent := false, url_path := "/account/login" } =
      _score_link_relevance_heuristic (initialCrawler 7 1)
        { url := "h://s/login", anchor_text := "Login to your account", context := "",
          title := "", aria_label := "", is_navigation := false, is_main_content := false,
          is_prominent := false, url_path := "/account/login" } ∧
    0 ≤ _score_link_relevance_heuristic (initialCrawler 50 3)
        { url := "h://s/login", anchor_text := "Login to your account", context := "",
          title := "", aria_label := "", is_navigation := false, is_main_content := false,
          is_prominent := false, url_path := "/account/login" } ∧
    _score_link_relevance_heuristic (initialCrawler 50 3)
        { url := "h://s/login", anchor_text := "Login to your account", context := "",
          title := "", aria_label := "", is_navigation := false, is_main_content := false,
          is_prominent := false, url_path := "/account/login" } ≤ 20 := by
  have h := c7_score_pure_bounded (initialCrawler 50 3) (initialCrawler 7 1)
    { url := "h://s/login", anchor_text := "Login to your account", context := "",
      title := "", aria_label := "", is_navigation := false, is_main_content := false,
      is_prominent := false, url_path := "/account/login" } rfl rfl rfl
  exact ⟨h.1, h.2.1, h.2.2.1⟩

/-- C8 (confirmed).  URL-pattern derivation is deterministic and stateless:
the method reads nothing from the crawler state, so any two states give
the same pattern for the same URL (in particular repeated calls agree);
and each non-empty path segment is replaced by `*` exactly under the
source's condition — entirely numeric (`isdigit`) or longer than 30
characters — and kept verbatim otherwise. -/
theorem c8_url_pattern_stateless (s₁ s₂ : Crawler) (url : String) :
    _extract_url_pattern s₁ url = _extract_url_pattern s₂ url ∧
    ∀ part ∈ urlPathParts url,
      ((pyIsDigit part || decide (30 < part.length)) = true → patternSegment part = "*") ∧
      ((pyIsDigit part || decide (30 < part.length)) = false → patternSegment part = part) := by
  refine ⟨rfl, ?_⟩
  intro part _hmem
  constructor
  · intro h
    unfold patternSegment
    rw [if_pos h]
  · intro h
    unfold patternSegment
    rw [if_neg (by rw [h]; exact Bool.false_ne_true)]

/-- C8 witness: the pattern of `h://s/abc/123` is independent of the
crawler state, and its numeric segment is starred. -/
theorem c8_url_pattern_witness :
    _extract_url_pattern (initialCrawler 50 3) "h://s/abc/123" =
      _extract_url_pattern (initialCrawler 7 1) "h://s/abc/123" ∧
    patternSegment "123" = "*" ∧
    patternSegment "abc" = "abc" :=
  ⟨(c8_url_pattern_stateless (initialCrawler 50 3) (initialCrawler 7 1) "h://s/abc/123").1,
   ((c8_url_pattern_stateless (initialCrawler 50 3) (initialCrawler 7 1) "h://s/abc/123").2
      "123" (by decide)).1 (by decide),
   ((c8_url_pattern_stateless (initialCrawler 50 3) (initialCrawler 7 1) "h://s/abc/123").2
      "abc" (by decide)).2 (by decide)⟩

/-- C9 (amended).  For every run configured with `maxPages = 5` and
`concurrency = 3`: the reconnaissance budget is `max(5, 5 // 10) = 5`; the
deep-crawl budget equals `5` minus the reconnaissance visited count —
which is `0` exactly when reconnaissance used its full budget, not
unconditionally (it is positive when the frontier empties early, see the
counterexample); and whenever reconnaissance did visit 5 pages, the
deep-crawl phase visits no further page (the visited log after the whole
crawl equals the log after reconnaissance; queue seeding may still
re-fetch already-visited reconnaissance pages for their links). -/
theorem c9_budgets_amended (env : Env) (fuel : Nat) (st : Crawler) (start_url : String)
    (h5 : st.max_pages = 5) (h3 : st.concurrency = 3) :
    reconBudget st = 5 ∧
    deep_budget (reconPhase env fuel st start_url).1 =
      5 - ((reconPhase env fuel st start_url).1.visited_urls.length : Int) ∧
    ((reconPhase env fuel st start_url).1.visited_urls.length = 5 →
      deep_budget (reconPhase env fuel st start_url).1 = 0 ∧
      (crawl_website env fuel st start_url).visited_urls =
        (reconPhase env fuel st start_url).1.visited_urls) := by
  have hmaxA : (reconPhase env fuel st start_url).1.max_pages = st.max_pages := by
    unfold reconPhase
    dsimp only
    exact reconLoop_max_pages env _ fuel _ _
  refine ⟨?_, ?_, ?_⟩
  · unfold reconBudget
    rw [h5]
    decide
  · unfold deep_budget
    rw [hmaxA, h5]
    norm_num
  · intro hv
    constructor
    · unfold deep_budget
      rw [hmaxA, h5, hv]
      norm_num
    · unfold crawl_website deepPhase
      dsimp only
      have hbudget : (seedDeepQueue env
          { _analyze_site_structure_update env (reconPhase env fuel st start_url).1 with
              current_phase := "deep_crawl" }).1.max_pages ≤
          (seedDeepQueue env
          { _analyze_site_structure_update env (reconPhase env fuel st start_url).1 with
              current_phase := "deep_crawl" }).1.visited_urls.length := by
        rw [seed_max_pages, seed_visited]
        dsimp only
        rw [structure_update_max_pages, structure_update_visited, hmaxA, h5, hv]
      rw [deepLoop_at_budget env fuel _ _ hbudget]
      rw [seed_visited]
      dsimp only
      rw [structure_update_visited]

/-- C9 counterexample: with `maxPages = 5, concurrency = 3` over the
two-page site `envNarrow`, reconnaissance exhausts the frontier after 2
pages, so the deep-crawl budget is `5 − 2 = 3`, not `0` as claimed. -/
theorem c9_deep_budget_nonzero_cex :
    (initialCrawler 5 3).max_pages = 5 ∧ (initialCrawler 5 3).concurrency = 3 ∧
    (reconPhase envNarrow 20 (initialCrawler 5 3) "h://s/").1.visited_urls.length = 2 ∧
    deep_budget (reconPhase envNarrow 20 (initialCrawler 5 3) "h://s/").1 = 3 ∧
    deep_budget (reconPhase envNarrow 20 (initialCrawler 5 3) "h://s/").1 ≠ 0 := by
  refine ⟨rfl, rfl, by decide, by decide, by decide⟩

/-- C9 witness: over `envWide` the reconnaissance phase exhausts its budget
of 5, and then the deep budget is 0 and the deep phase adds no page. -/
theorem c9_budgets_witness :
    reconBudget (initialCrawler 5 3) = 5 ∧
    deep_budget (reconPhase envWide 10 (initialCrawler 5 3) "h://s/").1 = 0 ∧
    (crawl_website envWide 10 (initialCrawler 5 3) "h://s/").visited_urls =
      (reconPhase envWide 10 (initialCrawler 5 3) "h://s/").1.visited_urls := by
  have h := c9_budgets_amended envWide 10 (initialCrawler 5 3) "h://s/" rfl rfl
  have hv : (reconPhase envWide 10 (initialCrawler 5 3) "h://s/").1.visited_urls.length = 5 := by
    decide
  exact ⟨h.1, (h.2.2 hv).1, (h.2.2 hv).2⟩

/-- C10 (confirmed).  `_normalize_url` rebuilds only `scheme://host/path`,
so any two URLs agreeing on scheme, host and path — in particular two
links differing only in query string or fragment — normalize to the very
same string and are therefore identified in the frontier and the visited
set; and in every run started with an empty visited set, the visited log
is duplicate-free, so each normalized URL is crawled as a page at most
once (each visit may still issue several fetcher calls for that same
URL: content fetch, link re-fetch, deep seeding). -/
theorem c10_normalize_dedup :
    (∀ (u₁ u₂ base₁ base₂ : String),
      (urlparseModel u₁).scheme = (urlparseModel u₂).scheme →
      (urlparseModel u₁).netloc = (urlparseModel u₂).netloc →
      (urlparseModel u₁).path = (urlparseModel u₂).path →
      _normalize_url u₁ base₁ = _normalize_url u₂ base₂) ∧
    (∀ (env : Env) (fuel : Nat) (st : Crawler) (start_url : String),
      st.visited_urls = [] →
      (crawl_website env fuel st start_url).visited_urls.Nodup) := by
  constructor
  · intro u₁ u₂ base₁ base₂ h1 h2 h3
    unfold _normalize_url
    dsimp only
    rw [h1, h2, h3]
  · intro env fuel st start_url h0
    unfold crawl_website deepPhase
    dsimp only
    apply deepLoop_nodup
    rw [seed_visited]
    dsimp only
    rw [structure_update_visited]
    unfold reconPhase
    dsimp only
    apply reconLoop_nodup
    simp [h0]

/-- C10 witness: two URLs differing only in query string and fragment
normalize identically, and the concrete `envWide` run visits no URL
twice. -/
theorem c10_normalize_dedup_witness :
    _normalize_url "h://s/p?x=1#f" "h://s/" = _normalize_url "h://s/p?y=2#g" "h://s/" ∧
    (crawl_website envWide 10 (initialCrawler 1 3) "h://s/").visited_urls.Nodup :=
  ⟨c10_normalize_dedup.1 "h://s/p?x=1#f" "h://s/p?y=2#g" "h://s/" "h://s/"
      (by decide) (by decide) (by decide),
   c10_normalize_dedup.2 envWide 10 (initialCrawler 1 3) "h://s/" rfl⟩
